import Mathlib

/-!
# Verification of the batch-execution / progress-reporting engine

Shallow embedding of the batch dispatcher, the two-tier progress store and
the SSE progress stream of `server/app.py` (with `server/redis_client.py`),
together with proofs of the repository's specified properties.

Modelling conventions:
* Times and percentages are rationals (`ℚ`); Python `round(x, 1)` is
  modelled by `pyRound1` (round-half-to-even, as Python's `round`).
* The two store tiers (Redis primary / in-memory fallback) are association
  lists keyed by `(session_id, step_id)`.  `clientPresent` says whether
  `redis_client.client` is non-`None`; `reachable` says whether calls to it
  succeed at call time.  `redis.ConnectionError` is a `redis.RedisError`,
  and `RedisClient.get_progress` / `update_progress` / `clear_progress`
  each catch `RedisError` internally and return, so with a present but
  unreachable client `_update_progress` and `_clear_progress` return from
  the Redis branch without touching the fallback dict (the write is
  dropped), while `_get_progress` sees `None` and falls through to the
  fallback read; the fallback dict is *written* only when the client
  object is absent.
* The remote call of one item (`execute_single_item`) is abstracted by its
  observable outcome: it raises, returns JSON that parses, or returns text
  that fails `json.loads`.
* Thread scheduling of `ThreadPoolExecutor` / `as_completed` is abstracted
  into an arbitrary completion order (a permutation of the item indices)
  and an arbitrary wall-clock reading at each completion.
-/

/-- Round to the nearest integer, ties to even — the semantics of Python's
built-in `round` on exact values. -/
def roundHalfEven (q : ℚ) : ℤ :=
  let n := ⌊q⌋
  let frac := q - (n : ℚ)
  if frac < 1/2 then n
  else if 1/2 < frac then n + 1
  else if n % 2 = 0 then n else n + 1

/-- Python's `round(x, 1)`: one decimal digit, ties to even. -/
def pyRound1 (q : ℚ) : ℚ := (roundHalfEven (q * 10) : ℚ) / 10

/-- One element of the bounded rolling log of recent item outcomes:
the `latest_item` dict `{'index': idx, 'success': ..., 'error': ...}`
appended by `_update_progress`. -/
structure LatestItem where
  index : ℕ
  success : Bool
  error : Option String := none
deriving DecidableEq

/-- One progress snapshot as stored by `_update_progress` (both tiers store
the same fields; the fallback's extra `step_id`/`timestamp` metadata and the
Redis TTL are not modelled). -/
structure ProgressEntry where
  completed : ℕ
  total : ℕ
  successful : ℕ
  failed : ℕ
  elapsed : ℚ
  eta : ℚ
  percent : ℚ
  items : List LatestItem
deriving DecidableEq

/-- Progress keys: `(session_id, step_id)`, after `f"{session_id}:{step_id}"`
resp. `f"progress:{session_id}:{step_id}"`. -/
abbrev ProgKey := String × ℕ

/-- First-match lookup in an association list (Python dict read /
Redis `HGETALL` of one key). -/
def lookupKey : List (ProgKey × ProgressEntry) → ProgKey → Option ProgressEntry
  | [], _ => none
  | kv :: rest, k => if kv.1 = k then some kv.2 else lookupKey rest k

/-- Delete a key (`dict.pop(key, None)` / Redis `DEL`). -/
def eraseKey (l : List (ProgKey × ProgressEntry)) (k : ProgKey) :
    List (ProgKey × ProgressEntry) :=
  l.filter (fun kv => decide (kv.1 ≠ k))

/-- Store a full entry under a key (`dict[key] = entry` / `HSET` of every
field). -/
def setKey (l : List (ProgKey × ProgressEntry)) (k : ProgKey)
    (v : ProgressEntry) : List (ProgKey × ProgressEntry) :=
  (k, v) :: eraseKey l k

/-- The two-tier progress store: the Redis primary and the in-process
fallback dict `_progress_store`.  `clientPresent` models
`redis_client.client` being non-`None`; `reachable` models the Redis calls
succeeding (no connection error) at call time. -/
structure StoreState where
  clientPresent : Bool
  reachable : Bool
  primary : List (ProgKey × ProgressEntry)
  fallback : List (ProgKey × ProgressEntry)
deriving DecidableEq

/-- The snapshot that one `_update_progress` call writes: all counter fields
are taken verbatim from the caller, `elapsed`/`eta` are rounded to one
decimal, `percent` is `round((completed/total)*100, 1)` guarded by
`total > 0`, and `latest_item` is appended to the current tier's rolling
log, capped at the last 20 entries (`app.py` lines 93–144). -/
def written_entry (st : StoreState) (session_id : String) (step_id : ℕ)
    (completed total successful failed : ℕ) (elapsed eta : ℚ)
    (latest_item : Option LatestItem) : ProgressEntry :=
  let existing := if st.clientPresent
    then (if st.reachable
      then lookupKey st.primary (session_id, step_id)
      else none)
    else lookupKey st.fallback (session_id, step_id)
  let items₀ := match existing with
    | some e => e.items
    | none => []
  let items := match latest_item with
    | some it =>
        let l := items₀ ++ [it]
        if 20 < l.length then l.drop (l.length - 20) else l
    | none => items₀
  { completed := completed
    total := total
    successful := successful
    failed := failed
    elapsed := pyRound1 elapsed
    eta := pyRound1 eta
    percent := if 0 < total
      then pyRound1 (((completed : ℚ) / (total : ℚ)) * 100)
      else 0
    items := items }

/-- `_update_progress`: with a Redis client present the snapshot goes to
Redis and the function returns (line 121); a call-time connection error is
a `RedisError` swallowed inside `RedisClient.update_progress`
(`redis_client.py` line 119), so the write is silently dropped and the
fallback dict is *not* touched.  Only when the client object is absent does
the in-memory fallback branch under `_progress_lock` run. -/
def update_progress (st : StoreState) (session_id : String) (step_id : ℕ)
    (completed total successful failed : ℕ) (elapsed eta : ℚ)
    (latest_item : Option LatestItem) : StoreState :=
  let e := written_entry st session_id step_id completed total successful
    failed elapsed eta latest_item
  if st.clientPresent then
    if st.reachable then
      { st with primary := setKey st.primary (session_id, step_id) e }
    else st
  else
    { st with fallback := setKey st.fallback (session_id, step_id) e }

/-- `_clear_progress`: with a client present, Redis `DEL` and return (line
152); a connection error is swallowed inside `RedisClient.clear_progress`
(`redis_client.py` line 132), so nothing is deleted anywhere.  With no
client, pop the key from the fallback dict (`pop(key, None)`: absent keys
are ignored). -/
def clear_progress (st : StoreState) (session_id : String) (step_id : ℕ) :
    StoreState :=
  if st.clientPresent then
    if st.reachable then
      { st with primary := eraseKey st.primary (session_id, step_id) }
    else st
  else
    { st with fallback := eraseKey st.fallback (session_id, step_id) }

/-- `_get_progress`: with a client present, read Redis;
`RedisClient.get_progress` returns `None` both when the key is absent and
on a swallowed connection error (`redis_client.py` lines 50-72), and the
`if progress:` check (app.py line 167) then falls through to the fallback
dict read; with no client, read the fallback dict directly. -/
def get_progress (st : StoreState) (session_id : String) (step_id : ℕ) :
    Option ProgressEntry :=
  if st.clientPresent then
    if st.reachable then
      match lookupKey st.primary (session_id, step_id) with
      | some e => some e
      | none => lookupKey st.fallback (session_id, step_id)
    else lookupKey st.fallback (session_id, step_id)
  else lookupKey st.fallback (session_id, step_id)

/-! ## Work-item execution (`execute_single_item`, lines 1003–1161) -/

/-- Observable behaviour of the remote call for one item: the worker raises
(timeout, transport error, any other exception), or the response text parses
as JSON, or `json.loads` raises `JSONDecodeError`. -/
inductive CallOutcome (β : Type) where
  | raises (msg : String)
  | returnsParsed (v : β)
  | returnsMalformed (raw detail : String)
deriving DecidableEq

/-- The value `execute_single_item` returns on its normal path: either the
parsed JSON, or (on `JSONDecodeError`, line 1161) the dict
`{'raw_response': raw, 'parse_error': detail}`. -/
inductive SingleResult (β : Type) where
  | parsed (v : β)
  | rawWithParseError (raw_response parse_error : String)
deriving DecidableEq

/-- `execute_single_item`: exceptions propagate to the caller; a response
that parses is returned as-is; a response that fails `json.loads` is
returned as the raw/parse-error dict (a *normal* return, not an error). -/
def execute_single_item {β : Type} :
    CallOutcome β → Except String (SingleResult β)
  | .raises msg => .error msg
  | .returnsParsed v => .ok (.parsed v)
  | .returnsMalformed raw detail => .ok (.rawWithParseError raw detail)

/-! ## Batch dispatcher (`execute_step_batch`, lines 1208–1372) -/

/-- One entry of the dispatcher's `results` array: the dict
`{'success': True, 'data': ..., 'item_index': idx}` on line 1288 or
`{'success': False, 'error': ..., 'item_index': idx}` on line 1323. -/
structure ItemResult (β : Type) where
  success : Bool
  data : Option (SingleResult β) := none
  error : Option String := none
  item_index : ℕ
deriving DecidableEq

/-- The result entry the dispatcher records for item `idx`, determined by
that item's own outcome alone. -/
def expectedResult {β : Type} (outcomes : ℕ → CallOutcome β) (idx : ℕ) :
    ItemResult β :=
  match execute_single_item (outcomes idx) with
  | .ok r => { success := true, data := some r, item_index := idx }
  | .error msg => { success := false, error := some msg, item_index := idx }

/-- `MAX_BATCH_WORKERS` env default (`app.py` line 52). -/
def MAX_BATCH_WORKERS : ℕ := 15

/-- `avg_time_per_item = elapsed / completed if completed > 0 else 0`
(line 1281). -/
def avg_time_per_item (elapsed : ℚ) (completed : ℕ) : ℚ :=
  if 0 < completed then elapsed / (completed : ℚ) else 0

/-- The phase-weighted percentage computed on lines 1262–1278; it feeds the
`phase_label` / `progress_pct` *log lines* only. -/
def log_progress_pct (step_id : ℕ) (phase : Option String)
    (completed n : ℕ) : ℚ :=
  if step_id = 4 ∧ phase = some "4b" then
    10 + ((completed : ℚ) / (n : ℚ)) * 90
  else if step_id = 4 ∧ phase = some "4a" then
    ((completed : ℚ) / (n : ℚ)) * 10
  else ((completed : ℚ) / (n : ℚ)) * 100

/-- Dispatcher state while draining `as_completed`: the pre-allocated
`results` array, the three counters, the store, and (ghost) the ordered
list of snapshots written so far. -/
structure DispatchState (β : Type) where
  results : List (Option (ItemResult β))
  completed : ℕ
  successful_so_far : ℕ
  failed_so_far : ℕ
  store : StoreState
  trace : List ProgressEntry
deriving DecidableEq

/-- Perform one `_update_progress` call: write to the store and append the
written snapshot to the ghost trace. -/
def pushProgress {β : Type} (st : DispatchState β) (session_id : String)
    (step_id : ℕ) (completed total successful failed : ℕ)
    (elapsed eta : ℚ) (latest_item : Option LatestItem) : DispatchState β :=
  { st with
    store := update_progress st.store session_id step_id completed total
      successful failed elapsed eta latest_item
    trace := st.trace ++ [written_entry st.store session_id step_id completed
      total successful failed elapsed eta latest_item] }

/-- Handle one completed future (loop body, lines 1257–1336): bump
`completed`, compute elapsed / average / eta, store the item's result dict
at its original index, bump the matching counter and push a progress
update.  `elapsedAt k` is the value of `time.time() - batch_start_time`
read when the `k`-th future is processed. -/
def processOne {β : Type} (session_id : String) (step_id : ℕ)
    (outcomes : ℕ → CallOutcome β) (n : ℕ) (elapsedAt : ℕ → ℚ)
    (st : DispatchState β) (idx : ℕ) : DispatchState β :=
  let completed := st.completed + 1
  let elapsed := elapsedAt completed
  let avg := avg_time_per_item elapsed completed
  let remaining_items := n - completed
  let eta_seconds := avg * (remaining_items : ℚ)
  match execute_single_item (outcomes idx) with
  | .ok result =>
      let successful := st.successful_so_far + 1
      let st' := { st with
        results := st.results.set idx
          (some { success := true, data := some result, item_index := idx })
        completed := completed
        successful_so_far := successful }
      pushProgress st' session_id step_id completed n successful
        st.failed_so_far elapsed eta_seconds
        (some { index := idx, success := true })
  | .error msg =>
      let failed := st.failed_so_far + 1
      let st' := { st with
        results := st.results.set idx
          (some { success := false, error := some msg, item_index := idx })
        completed := completed
        failed_so_far := failed }
      pushProgress st' session_id step_id completed n st.successful_so_far
        failed elapsed eta_seconds
        (some { index := idx, success := false, error := some msg })

/-- The batch summary returned to the caller (lines 1359–1365; the
`completed_at` timestamp is not modelled). -/
structure BatchSummary (β : Type) where
  batch_results : List (ItemResult β)
  total_processed : ℕ
  successful : ℕ
  failed : ℕ
deriving DecidableEq

/-- `execute_step_batch` (lines 1208–1372).

* `n` is `len(items)`; `outcomes idx` is the behaviour of item `idx`'s
  future, fixed by that item's own remote call.
* `order` is the order in which `as_completed` yields the futures — an
  arbitrary permutation of `0..n-1`; `phase_info` is `phase_info.get('phase')`
  and only feeds the log percentage (`log_progress_pct`), never the store.
* `ThreadPoolExecutor(max_workers=0)` raises
  `ValueError("max_workers must be greater than 0")` (CPython
  `concurrent/futures/thread.py`), so an empty batch errors out after the
  initial `_clear_progress` and before any progress snapshot is written;
  the outer handler turns this into a 500 response.
* On success, returns the batch summary, the final store (cleared, line
  1356) and the ghost trace of snapshots written. -/
def execute_step_batch {β : Type} (session_id : String) (step_id : ℕ)
    (phase_info : Option String) (outcomes : ℕ → CallOutcome β) (n : ℕ)
    (order : List ℕ) (elapsedAt : ℕ → ℚ) (store0 : StoreState) :
    Except String (BatchSummary β × StoreState × List ProgressEntry) :=
  let max_workers := min n MAX_BATCH_WORKERS
  let results : List (Option (ItemResult β)) := List.replicate n none
  let store1 := clear_progress store0 session_id step_id
  if max_workers = 0 then
    .error "max_workers must be greater than 0"
  else
    let st0 : DispatchState β :=
      { results := results, completed := 0, successful_so_far := 0,
        failed_so_far := 0, store := store1, trace := [] }
    let st1 := pushProgress st0 session_id step_id 0 n 0 0 0 0 none
    let stF := order.foldl (processOne session_id step_id outcomes n elapsedAt) st1
    let completed_results := stF.results.filterMap id
    let successful_count := (completed_results.filter (fun r => r.success)).length
    let failed_count := completed_results.length - successful_count
    let storeF := clear_progress stF.store session_id step_id
    .ok ({ batch_results := completed_results
           total_processed := completed_results.length
           successful := successful_count
           failed := failed_count }, storeF, stF.trace)

/-- Projection of a batch run onto what the HTTP caller sees. -/
def summaryOf {β : Type}
    (r : Except String (BatchSummary β × StoreState × List ProgressEntry)) :
    Except String (BatchSummary β) :=
  r.map (fun out => out.1)

/-- Projection: the batch summary's result array (empty on the error path,
where no array is returned at all). -/
def batchResultsOf {β : Type}
    (r : Except String (BatchSummary β × StoreState × List ProgressEntry)) :
    List (ItemResult β) :=
  match r with
  | .ok out => out.1.batch_results
  | .error _ => []

/-- Projection: the `successful` counter of the final batch summary. -/
def successfulOf {β : Type}
    (r : Except String (BatchSummary β × StoreState × List ProgressEntry)) : ℕ :=
  match r with
  | .ok out => out.1.successful
  | .error _ => 0

/-- Projection: the `failed` counter of the final batch summary. -/
def failedOf {β : Type}
    (r : Except String (BatchSummary β × StoreState × List ProgressEntry)) : ℕ :=
  match r with
  | .ok out => out.1.failed
  | .error _ => 0

/-- Projection: did the dispatcher return normally? -/
def runSucceeds {β : Type}
    (r : Except String (BatchSummary β × StoreState × List ProgressEntry)) : Bool :=
  match r with
  | .ok _ => true
  | .error _ => false

/-- Projection: the ordered list of progress snapshots written during the
batch (empty on the error path, which happens before the first write). -/
def traceOf {β : Type}
    (r : Except String (BatchSummary β × StoreState × List ProgressEntry)) :
    List ProgressEntry :=
  match r with
  | .ok out => out.2.2
  | .error _ => []

/-! ## Progress stream (`stream_progress`, lines 180–225) -/

/-- Generator state of the SSE loop: `last_completed` (initially `-1`) and
`idle_count`. -/
structure StreamState where
  lastCompleted : ℤ
  idleCount : ℕ
deriving DecidableEq

/-- Events the generator yields: a progress snapshot, the final
`{**progress, 'done': True}` event, or `{'done': True, 'timeout': True}`. -/
inductive StreamEvent where
  | snapshot (p : ProgressEntry)
  | done (p : ProgressEntry)
  | doneTimeout
deriving DecidableEq

/-- `last_completed = -1`, `idle_count = 0` (lines 197–198). -/
def initStream : StreamState := { lastCompleted := -1, idleCount := 0 }

/-- One iteration of the `while True` loop (lines 199–215): `read` is what
`_get_progress` returned on this tick.  Returns the events yielded this
tick and `some` next state, or `none` when the generator returned.
(After an emission `idle_count` is reset to `0`, so the `idle_count > 300`
check that follows in the source can never fire on that path.) -/
def streamTick (s : StreamState) (read : Option ProgressEntry) :
    List StreamEvent × Option StreamState :=
  match read with
  | some p =>
      if (p.completed : ℤ) ≠ s.lastCompleted then
        if p.total ≤ p.completed then
          ([.snapshot p, .done p], none)
        else
          ([.snapshot p], some { lastCompleted := (p.completed : ℤ), idleCount := 0 })
      else
        let idle := s.idleCount + 1
        if 300 < idle then ([.doneTimeout], none)
        else ([], some { s with idleCount := idle })
  | none =>
      let idle := s.idleCount + 1
      if 300 < idle then ([.doneTimeout], none)
      else ([], some { s with idleCount := idle })

/-- Run the generator over a finite prefix of ticks, collecting the emitted
events; the final component is `none` when the generator terminated within
the prefix. -/
def streamRunFrom : Option StreamState → List (Option ProgressEntry) →
    List StreamEvent × Option StreamState
  | none, _ => ([], none)
  | some s, [] => ([], some s)
  | some s, read :: rest =>
      let t := streamTick s read
      let r := streamRunFrom t.2 rest
      (t.1 ++ r.1, r.2)

/-! ## Store lemmas -/

theorem lookupKey_setKey_self (l : List (ProgKey × ProgressEntry))
    (k : ProgKey) (v : ProgressEntry) : lookupKey (setKey l k v) k = some v := by
  simp [setKey, lookupKey]

theorem lookupKey_eraseKey_self (l : List (ProgKey × ProgressEntry))
    (k : ProgKey) : lookupKey (eraseKey l k) k = none := by
  induction l with
  | nil => rfl
  | cons kv rest ih =>
      by_cases h : kv.1 = k
      · simpa [eraseKey, List.filter_cons, h] using ih
      · simpa [eraseKey, List.filter_cons, h, lookupKey] using ih

theorem eraseKey_of_lookup_none (l : List (ProgKey × ProgressEntry))
    (k : ProgKey) (h : lookupKey l k = none) : eraseKey l k = l := by
  induction l with
  | nil => rfl
  | cons kv rest ih =>
      by_cases hk : kv.1 = k
      · simp [lookupKey, hk] at h
      · simp [lookupKey, hk] at h
        simp [eraseKey, List.filter_cons, hk] at ih ⊢
        exact ih h

theorem eraseKey_idem (l : List (ProgKey × ProgressEntry)) (k : ProgKey) :
    eraseKey (eraseKey l k) k = eraseKey l k :=
  eraseKey_of_lookup_none _ _ (lookupKey_eraseKey_self l k)

/-! ## Dispatcher lemmas -/

theorem processOne_results {β : Type} (sid : String) (stp : ℕ)
    (outcomes : ℕ → CallOutcome β) (n : ℕ) (elapsedAt : ℕ → ℚ)
    (st : DispatchState β) (idx : ℕ) :
    (processOne sid stp outcomes n elapsedAt st idx).results
      = st.results.set idx (some (expectedResult outcomes idx)) := by
  cases h : execute_single_item (outcomes idx) <;>
    simp [processOne, pushProgress, expectedResult, h]

theorem processOne_completed {β : Type} (sid : String) (stp : ℕ)
    (outcomes : ℕ → CallOutcome β) (n : ℕ) (elapsedAt : ℕ → ℚ)
    (st : DispatchState β) (idx : ℕ) :
    (processOne sid stp outcomes n elapsedAt st idx).completed
      = st.completed + 1 := by
  cases h : execute_single_item (outcomes idx) <;>
    simp [processOne, pushProgress, h]

theorem processOne_counters {β : Type} (sid : String) (stp : ℕ)
    (outcomes : ℕ → CallOutcome β) (n : ℕ) (elapsedAt : ℕ → ℚ)
    (st : DispatchState β) (idx : ℕ) :
    (processOne sid stp outcomes n elapsedAt st idx).successful_so_far
        + (processOne sid stp outcomes n elapsedAt st idx).failed_so_far
      = st.successful_so_far + st.failed_so_far + 1 := by
  cases h : execute_single_item (outcomes idx) <;>
    simp [processOne, pushProgress, h] <;> omega

theorem processOne_trace {β : Type} (sid : String) (stp : ℕ)
    (outcomes : ℕ → CallOutcome β) (n : ℕ) (elapsedAt : ℕ → ℚ)
    (st : DispatchState β) (idx : ℕ) :
    ∃ (latest : LatestItem) (s f : ℕ),
      s + f = st.successful_so_far + st.failed_so_far + 1 ∧
      (processOne sid stp outcomes n elapsedAt st idx).trace
        = st.trace ++ [written_entry st.store sid stp (st.completed + 1) n s f
            (elapsedAt (st.completed + 1))
            (avg_time_per_item (elapsedAt (st.completed + 1)) (st.completed + 1)
              * (((n - (st.completed + 1) : ℕ)) : ℚ)) (some latest)] := by
  cases h : execute_single_item (outcomes idx) with
  | ok r =>
      refine ⟨{ index := idx, success := true }, st.successful_so_far + 1,
        st.failed_so_far, by omega, ?_⟩
      simp [processOne, pushProgress, h]
  | error msg =>
      refine ⟨{ index := idx, success := false, error := some msg },
        st.successful_so_far, st.failed_so_far + 1, by omega, ?_⟩
      simp [processOne, pushProgress, h]

theorem fold_trace_invariant {β : Type} (sid : String) (stp : ℕ)
    (outcomes : ℕ → CallOutcome β) (n : ℕ) (elapsedAt : ℕ → ℚ)
    (P : ProgressEntry → Prop)
    (hP : ∀ (store : StoreState) (c s f : ℕ) (latest : LatestItem),
      s + f = c → c ≤ n →
      P (written_entry store sid stp c n s f (elapsedAt c)
          (avg_time_per_item (elapsedAt c) c * (((n - c : ℕ)) : ℚ))
          (some latest))) :
    ∀ (l : List ℕ) (st : DispatchState β),
      st.completed = st.successful_so_far + st.failed_so_far →
      st.completed + l.length ≤ n →
      (∀ e ∈ st.trace, P e) →
      ∀ e ∈ (l.foldl (processOne sid stp outcomes n elapsedAt) st).trace, P e := by
  intro l
  induction l with
  | nil => intro st h1 _ h3; simpa using h3
  | cons idx rest ih =>
      intro st h1 h2 h3
      simp only [List.foldl_cons]
      obtain ⟨latest, s, f, hsum, htr⟩ :=
        processOne_trace sid stp outcomes n elapsedAt st idx
      apply ih
      · rw [processOne_completed]
        have := processOne_counters sid stp outcomes n elapsedAt st idx
        omega
      · rw [processOne_completed]
        simp only [List.length_cons] at h2
        omega
      · intro e he
        rw [htr] at he
        rcases List.mem_append.mp he with h | h
        · exact h3 e h
        · simp only [List.mem_singleton] at h
          subst h
          apply hP
          · omega
          · simp only [List.length_cons] at h2
            omega

theorem fold_results_length {β : Type} (sid : String) (stp : ℕ)
    (outcomes : ℕ → CallOutcome β) (n : ℕ) (elapsedAt : ℕ → ℚ) :
    ∀ (l : List ℕ) (st : DispatchState β),
      ((l.foldl (processOne sid stp outcomes n elapsedAt) st).results).length
        = st.results.length := by
  intro l
  induction l with
  | nil => intro st; rfl
  | cons idx rest ih =>
      intro st
      simp only [List.foldl_cons]
      rw [ih, processOne_results, List.length_set]

theorem fold_results_getElem? {β : Type} (sid : String) (stp : ℕ)
    (outcomes : ℕ → CallOutcome β) (n : ℕ) (elapsedAt : ℕ → ℚ) (i : ℕ) :
    ∀ (l : List ℕ) (st : DispatchState β),
      (∀ j ∈ l, j < st.results.length) →
      ((l.foldl (processOne sid stp outcomes n elapsedAt) st).results)[i]?
        = if i ∈ l then some (some (expectedResult outcomes i))
          else st.results[i]? := by
  intro l
  induction l with
  | nil => intro st _; simp
  | cons j rest ih =>
      intro st hb
      simp only [List.foldl_cons]
      rw [ih _ (fun j' hj' => by
        rw [processOne_results, List.length_set]
        exact hb j' (List.mem_cons_of_mem _ hj'))]
      by_cases hi : i ∈ rest
      · simp [hi, List.mem_cons]
      · simp only [hi, if_false]
        rw [processOne_results]
        by_cases hij : i = j
        · subst hij
          rw [List.getElem?_set_self (hb i (List.mem_cons_self i rest))]
          simp
        · rw [List.getElem?_set_ne (fun h => hij h.symm)]
          simp [List.mem_cons, hi, hij]

theorem fold_results_final {β : Type} (sid : String) (stp : ℕ)
    (outcomes : ℕ → CallOutcome β) (n : ℕ) (elapsedAt : ℕ → ℚ)
    (order : List ℕ) (h2 : order.Perm (List.range n))
    (st : DispatchState β) (hres : st.results = List.replicate n none) :
    (order.foldl (processOne sid stp outcomes n elapsedAt) st).results
      = (List.range n).map (fun i => some (expectedResult outcomes i)) := by
  apply List.ext_getElem?
  intro i
  rw [fold_results_getElem? sid stp outcomes n elapsedAt i order st
    (fun j hj => by
      rw [hres, List.length_replicate]
      exact List.mem_range.mp (h2.mem_iff.mp hj))]
  by_cases hi : i < n
  · have hmem : i ∈ order := h2.mem_iff.mpr (List.mem_range.mpr hi)
    simp [hmem, List.getElem?_map, List.getElem?_range hi]
  · have hmem : i ∉ order := fun h =>
      hi (List.mem_range.mp (h2.mem_iff.mp h))
    simp only [hmem, if_false, hres]
    rw [List.getElem?_eq_none (by simpa using Nat.le_of_not_lt hi),
      List.getElem?_eq_none (by simpa using Nat.le_of_not_lt hi)]

theorem fold_core_indep {β : Type} (sid : String) (stp : ℕ)
    (outcomes : ℕ → CallOutcome β) (n : ℕ) (elapsedAt : ℕ → ℚ) :
    ∀ (l : List ℕ) (st st' : DispatchState β),
      st.results = st'.results → st.completed = st'.completed →
      st.successful_so_far = st'.successful_so_far →
      st.failed_so_far = st'.failed_so_far →
      ((l.foldl (processOne sid stp outcomes n elapsedAt) st).results
          = (l.foldl (processOne sid stp outcomes n elapsedAt) st').results
        ∧ (l.foldl (processOne sid stp outcomes n elapsedAt) st).completed
          = (l.foldl (processOne sid stp outcomes n elapsedAt) st').completed
        ∧ (l.foldl (processOne sid stp outcomes n elapsedAt) st).successful_so_far
          = (l.foldl (processOne sid stp outcomes n elapsedAt) st').successful_so_far
        ∧ (l.foldl (processOne sid stp outcomes n elapsedAt) st).failed_so_far
          = (l.foldl (processOne sid stp outcomes n elapsedAt) st').failed_so_far) := by
  intro l
  induction l with
  | nil => intro st st' h1 h2 h3 h4; exact ⟨h1, h2, h3, h4⟩
  | cons idx rest ih =>
      intro st st' h1 h2 h3 h4
      simp only [List.foldl_cons]
      apply ih <;>
        cases h : execute_single_item (outcomes idx) <;>
          simp [processOne, pushProgress, h, h1, h2, h3, h4]

theorem fold_trace_head {β : Type} (sid : String) (stp : ℕ)
    (outcomes : ℕ → CallOutcome β) (n : ℕ) (elapsedAt : ℕ → ℚ) :
    ∀ (l : List ℕ) (st : DispatchState β) (e : ProgressEntry),
      st.trace.head? = some e →
      ((l.foldl (processOne sid stp outcomes n elapsedAt) st).trace).head?
        = some e := by
  intro l
  induction l with
  | nil => intro st e he; simpa using he
  | cons idx rest ih =>
      intro st e he
      simp only [List.foldl_cons]
      apply ih
      obtain ⟨latest, s, f, _, htr⟩ :=
        processOne_trace sid stp outcomes n elapsedAt st idx
      rw [htr]
      cases hst : st.trace with
      | nil => rw [hst] at he; simp at he
      | cons a t => rw [hst] at he; simpa using he

theorem execute_step_batch_summary {β : Type} (sid : String) (stp : ℕ)
    (phase : Option String) (outcomes : ℕ → CallOutcome β) (n : ℕ)
    (order : List ℕ) (elapsedAt : ℕ → ℚ) (store0 : StoreState)
    (h1 : 0 < n) (h2 : order.Perm (List.range n)) :
    summaryOf (execute_step_batch sid stp phase outcomes n order elapsedAt store0)
      = .ok { batch_results := (List.range n).map (expectedResult outcomes)
              total_processed := n
              successful := ((List.range n).filter
                (fun i => (expectedResult outcomes i).success)).length
              failed := n - ((List.range n).filter
                (fun i => (expectedResult outcomes i).success)).length } := by
  have hmw : ¬ (min n MAX_BATCH_WORKERS = 0) := by
    simp only [MAX_BATCH_WORKERS, Nat.min_eq_zero_iff]
    omega
  simp only [execute_step_batch, summaryOf]
  rw [if_neg hmw]
  rw [fold_results_final sid stp outcomes n elapsedAt order h2 _
    (by simp [pushProgress])]
  simp only [Except.map]
  congr 1
  rw [List.filterMap_map]
  have hfm : List.filterMap (id ∘ fun i => some (expectedResult outcomes i))
      (List.range n) = (List.range n).map (expectedResult outcomes) :=
    congrFun (List.filterMap_eq_map (expectedResult outcomes)) (List.range n)
  rw [hfm]
  congr 1
  · simp
  · rw [List.filter_map, List.length_map]
    rfl
  · rw [List.filter_map, List.length_map, List.length_map, List.length_range]
    rfl

/-! ## Stream lemmas -/

theorem streamTick_unchanged (s : StreamState) (read : Option ProgressEntry)
    (hr : ∀ p, read = some p → (p.completed : ℤ) = s.lastCompleted)
    (hidle : s.idleCount < 300) :
    streamTick s read = ([], some ⟨s.lastCompleted, s.idleCount + 1⟩) := by
  cases read with
  | none =>
      simp only [streamTick]
      rw [if_neg (by omega)]
  | some p =>
      have hp := hr p rfl
      simp only [streamTick, hp, ne_eq, not_true_eq_false, if_false]
      rw [if_neg (by omega)]

theorem streamTick_timeout (s : StreamState) (read : Option ProgressEntry)
    (hr : ∀ p, read = some p → (p.completed : ℤ) = s.lastCompleted)
    (hidle : 300 ≤ s.idleCount) :
    streamTick s read = ([.doneTimeout], none) := by
  cases read with
  | none =>
      simp only [streamTick]
      rw [if_pos (by omega)]
  | some p =>
      have hp := hr p rfl
      simp only [streamTick, hp, ne_eq, not_true_eq_false, if_false]
      rw [if_pos (by omega)]

theorem streamRun_unchanged :
    ∀ (reads : List (Option ProgressEntry)) (lc : ℤ) (j : ℕ),
      (∀ r ∈ reads, ∀ p, r = some p → (p.completed : ℤ) = lc) →
      j + reads.length ≤ 300 →
      streamRunFrom (some ⟨lc, j⟩) reads
        = ([], some ⟨lc, j + reads.length⟩) := by
  intro reads
  induction reads with
  | nil => intro lc j _ _; simp [streamRunFrom]
  | cons r rest ih =>
      intro lc j hr hb
      simp only [streamRunFrom]
      rw [streamTick_unchanged ⟨lc, j⟩ r (fun p hp => hr r (by simp) p hp)
        (by dsimp only; simp only [List.length_cons] at hb; omega)]
      dsimp only
      rw [ih lc (j + 1) (fun r' hr' p hp => hr r' (by simp [hr']) p hp)
        (by simp only [List.length_cons] at hb; omega)]
      simp only [List.length_cons, List.nil_append]
      have harith : j + 1 + rest.length = j + (rest.length + 1) := by omega
      rw [harith]

theorem streamRun_timeout :
    ∀ (reads : List (Option ProgressEntry)) (lc : ℤ) (j : ℕ),
      (∀ r ∈ reads, ∀ p, r = some p → (p.completed : ℤ) = lc) →
      j ≤ 300 → j + reads.length = 301 →
      streamRunFrom (some ⟨lc, j⟩) reads = ([.doneTimeout], none) := by
  intro reads
  induction reads with
  | nil => intro lc j _ hj hlen; simp at hlen; omega
  | cons r rest ih =>
      intro lc j hr hj hlen
      simp only [streamRunFrom]
      by_cases h300 : j = 300
      · subst h300
        have hrest : rest = [] := by
          simp only [List.length_cons] at hlen
          exact List.eq_nil_of_length_eq_zero (by omega)
        subst hrest
        rw [streamTick_timeout ⟨lc, 300⟩ r (fun p hp => hr r (by simp) p hp)
          (by dsimp only; omega)]
        simp [streamRunFrom]
      · rw [streamTick_unchanged ⟨lc, j⟩ r (fun p hp => hr r (by simp) p hp)
          (by dsimp only; omega)]
        dsimp only
        rw [ih lc (j + 1) (fun r' hr' p hp => hr r' (by simp [hr']) p hp)
          (by omega) (by simp only [List.length_cons] at hlen; omega)]
        simp

/-! ## Projection helpers -/

theorem batchResultsOf_of_summaryOf {β : Type}
    (r : Except String (BatchSummary β × StoreState × List ProgressEntry))
    (s : BatchSummary β) (h : summaryOf r = .ok s) :
    batchResultsOf r = s.batch_results := by
  cases r with
  | ok out =>
      simp [summaryOf, Except.map] at h
      simp [batchResultsOf, h.symm]
  | error e => simp [summaryOf, Except.map] at h

theorem successfulOf_of_summaryOf {β : Type}
    (r : Except String (BatchSummary β × StoreState × List ProgressEntry))
    (s : BatchSummary β) (h : summaryOf r = .ok s) :
    successfulOf r = s.successful := by
  cases r with
  | ok out =>
      simp [summaryOf, Except.map] at h
      simp [successfulOf, h.symm]
  | error e => simp [summaryOf, Except.map] at h

theorem failedOf_of_summaryOf {β : Type}
    (r : Except String (BatchSummary β × StoreState × List ProgressEntry))
    (s : BatchSummary β) (h : summaryOf r = .ok s) :
    failedOf r = s.failed := by
  cases r with
  | ok out =>
      simp [summaryOf, Except.map] at h
      simp [failedOf, h.symm]
  | error e => simp [summaryOf, Except.map] at h

theorem runSucceeds_of_summaryOf {β : Type}
    (r : Except String (BatchSummary β × StoreState × List ProgressEntry))
    (s : BatchSummary β) (h : summaryOf r = .ok s) :
    runSucceeds r = true := by
  cases r with
  | ok out => simp [runSucceeds]
  | error e => simp [summaryOf, Except.map] at h

theorem pyRound1_zero : pyRound1 0 = 0 := by
  norm_num [pyRound1, roundHalfEven]

/-! ## Claims -/

/-- C8: clearing progress for a `(session, stepId)` key that is not
currently tracked is a no-op that raises no error and leaves the store
unchanged, and clear is idempotent, on whichever tier is live. -/
theorem C8_clear_untracked_noop_and_idempotent :
    (∀ (st : StoreState) (sid : String) (stp : ℕ),
        get_progress st sid stp = none → clear_progress st sid stp = st)
    ∧ (∀ (st : StoreState) (sid : String) (stp : ℕ),
        clear_progress (clear_progress st sid stp) sid stp
          = clear_progress st sid stp) := by
  constructor
  · intro st sid stp h
    obtain ⟨cp, rch, prim, fb⟩ := st
    cases cp with
    | true =>
        cases rch with
        | true =>
            simp only [get_progress, if_true] at h
            cases hlk : lookupKey prim (sid, stp) with
            | some e => rw [hlk] at h; simp at h
            | none =>
                simp only [clear_progress, if_true]
                rw [eraseKey_of_lookup_none _ _ hlk]
        | false => rfl
    | false =>
        simp only [get_progress, Bool.false_eq_true, if_false] at h
        simp only [clear_progress, Bool.false_eq_true, if_false]
        rw [eraseKey_of_lookup_none _ _ h]
  · intro st sid stp
    obtain ⟨cp, rch, prim, fb⟩ := st
    cases cp <;> cases rch <;> simp [clear_progress, eraseKey_idem]

/-- C8 witness: clearing an untracked key on an empty store leaves it
unchanged. -/
theorem C8_witness :
    clear_progress { clientPresent := true, reachable := true, primary := [], fallback := [] } "s" 1
      = { clientPresent := true, reachable := true, primary := [], fallback := [] } :=
  C8_clear_untracked_noop_and_idempotent.1
    { clientPresent := true, reachable := true, primary := [], fallback := [] } "s" 1 rfl

/-- C7 counterexample: a store whose Redis client is present but
unreachable at call time.  `RedisClient.update_progress` and
`clear_progress` swallow the `RedisError` internally and `_update_progress`
/ `_clear_progress` return from the Redis branch, so the update and the
clear touch *neither* tier — nothing lands in the in-process fallback map
and a subsequent get finds nothing, contradicting the claim that update
and clear succeed *via the fallback map*. -/
theorem C7_counterexample :
    update_progress
        { clientPresent := true, reachable := false, primary := [], fallback := [] }
        "s" 1 1 2 1 0 1 1 none
      = { clientPresent := true, reachable := false, primary := [], fallback := [] }
    ∧ get_progress (update_progress
        { clientPresent := true, reachable := false, primary := [], fallback := [] }
        "s" 1 1 2 1 0 1 1 none) "s" 1 = none
    ∧ clear_progress
        { clientPresent := true, reachable := false, primary := [], fallback := [] }
        "s" 1
      = { clientPresent := true, reachable := false, primary := [], fallback := [] } :=
  ⟨rfl, rfl, rfl⟩

/-- C7 amended: when the primary tier is unreachable at call time
(connection error, swallowed inside `redis_client.py`), no store operation
raises to the dispatcher: get is served by the in-process fallback map,
while update and clear return having written / deleted nothing on either
tier (silent degradation).  The fallback map is written only when the Redis
client object is absent — then update round-trips through get, clear
empties the key and the primary map is untouched.  In every case the
dispatcher's final summary — the result array included — is the same
whatever the store state. -/
theorem C7_store_degradation :
    (∀ (st : StoreState) (sid : String) (stp c t s f : ℕ) (el et : ℚ)
        (li : Option LatestItem),
        st.clientPresent = true → st.reachable = false →
      update_progress st sid stp c t s f el et li = st
        ∧ clear_progress st sid stp = st
        ∧ get_progress st sid stp = lookupKey st.fallback (sid, stp))
    ∧ (∀ (st : StoreState) (sid : String) (stp c t s f : ℕ) (el et : ℚ)
        (li : Option LatestItem), st.clientPresent = false →
      get_progress (update_progress st sid stp c t s f el et li) sid stp
          = some (written_entry st sid stp c t s f el et li)
        ∧ (update_progress st sid stp c t s f el et li).primary = st.primary
        ∧ get_progress (clear_progress st sid stp) sid stp = none
        ∧ (clear_progress st sid stp).primary = st.primary)
    ∧ (∀ (β : Type) (sid : String) (stp : ℕ) (phase : Option String)
        (outcomes : ℕ → CallOutcome β) (n : ℕ) (order : List ℕ)
        (elapsedAt : ℕ → ℚ) (st0 st0' : StoreState),
        summaryOf (execute_step_batch sid stp phase outcomes n order
            elapsedAt st0)
          = summaryOf (execute_step_batch sid stp phase outcomes n order
            elapsedAt st0')) := by
  refine ⟨?_, ?_, ?_⟩
  · intro st sid stp c t s f el et li hcp hrch
    refine ⟨?_, ?_, ?_⟩
    · simp [update_progress, hcp, hrch]
    · simp [clear_progress, hcp, hrch]
    · simp [get_progress, hcp, hrch]
  · intro st sid stp c t s f el et li hcp
    refine ⟨?_, ?_, ?_, ?_⟩
    · simp [update_progress, get_progress, hcp, lookupKey_setKey_self]
    · simp [update_progress, hcp]
    · simp [clear_progress, get_progress, hcp, lookupKey_eraseKey_self]
    · simp [clear_progress, hcp]
  · intro β sid stp phase outcomes n order elapsedAt st0 st0'
    by_cases h : min n MAX_BATCH_WORKERS = 0
    · simp [execute_step_batch, summaryOf, h]
    · simp only [execute_step_batch, summaryOf, if_neg h, Except.map]
      obtain ⟨hres, -, -, -⟩ := fold_core_indep sid stp outcomes n elapsedAt
        order
        (pushProgress ⟨List.replicate n none, 0, 0, 0,
          clear_progress st0 sid stp, []⟩ sid stp 0 n 0 0 0 0 none)
        (pushProgress ⟨List.replicate n none, 0, 0, 0,
          clear_progress st0' sid stp, []⟩ sid stp 0 n 0 0 0 0 none)
        rfl rfl rfl rfl
      rw [hres]

/-- C7 witness: with no Redis client, an update on the empty store
round-trips through the fallback tier and leaves the primary map alone. -/
theorem C7_witness :
    get_progress (update_progress
        { clientPresent := false, reachable := true, primary := [], fallback := [] }
        "s" 1 1 2 1 0 1 1 none) "s" 1
      = some (written_entry
        { clientPresent := false, reachable := true, primary := [], fallback := [] }
        "s" 1 1 2 1 0 1 1 none)
    ∧ (update_progress
        { clientPresent := false, reachable := true, primary := [], fallback := [] }
        "s" 1 1 2 1 0 1 1 none).primary = []
    ∧ get_progress (clear_progress
        { clientPresent := false, reachable := true, primary := [], fallback := [] }
        "s" 1) "s" 1 = none
    ∧ (clear_progress
        { clientPresent := false, reachable := true, primary := [], fallback := [] }
        "s" 1).primary = [] :=
  C7_store_degradation.2.1
    { clientPresent := false, reachable := true, primary := [], fallback := [] }
    "s" 1 1 2 1 0 1 1 none rfl

/-- C10: the progress machinery never divides by zero — with `total = 0`
the stored `percent` is `0` (the `if total > 0` guard), with
`completed = 0` the dispatcher's average time per item is `0` (the
`if completed > 0` guard) and hence the eta it passes is `0`, and the
initial zero snapshot of any batch run carries `completed = 0`, `eta = 0`,
`percent = 0`. -/
theorem C10_division_guards :
    (∀ (st : StoreState) (sid : String) (stp c s f : ℕ) (el et : ℚ)
        (li : Option LatestItem),
      (written_entry st sid stp c 0 s f el et li).percent = 0)
    ∧ (∀ el : ℚ, avg_time_per_item el 0 = 0)
    ∧ (∀ (el : ℚ) (r : ℕ), avg_time_per_item el 0 * (r : ℚ) = 0)
    ∧ (∀ (β : Type) (sid : String) (stp : ℕ) (phase : Option String)
        (outcomes : ℕ → CallOutcome β) (n : ℕ) (order : List ℕ)
        (elapsedAt : ℕ → ℚ) (st0 : StoreState) (e : ProgressEntry),
        (traceOf (execute_step_batch sid stp phase outcomes n order
            elapsedAt st0)).head? = some e →
        e.completed = 0 ∧ e.eta = 0 ∧ e.percent = 0) := by
  refine ⟨?_, ?_, ?_, ?_⟩
  · intro st sid stp c s f el et li
    simp [written_entry]
  · intro el
    simp [avg_time_per_item]
  · intro el r
    simp [avg_time_per_item]
  · intro β sid stp phase outcomes n order elapsedAt st0 e
    by_cases h : min n MAX_BATCH_WORKERS = 0
    · simp [execute_step_batch, traceOf, h]
    · simp only [execute_step_batch, traceOf, if_neg h]
      intro hhead
      have hh := fold_trace_head sid stp outcomes n elapsedAt order
        (pushProgress ⟨List.replicate n none, 0, 0, 0,
          clear_progress st0 sid stp, []⟩ sid stp 0 n 0 0 0 0 none)
        (written_entry (clear_progress st0 sid stp) sid stp 0 n 0 0 0 0 none)
        rfl
      rw [hh] at hhead
      have he : e = written_entry (clear_progress st0 sid stp) sid stp
          0 n 0 0 0 0 none := by
        injection hhead with h'
        exact h'.symm
      subst he
      refine ⟨rfl, ?_, ?_⟩
      · simp [written_entry, pyRound1_zero]
      · simp [written_entry, pyRound1_zero]

/-- C10 witness: the initial zero snapshot of a concrete one-item batch has
`completed = 0`, `eta = 0`, `percent = 0`. -/
theorem C10_witness :
    (written_entry
        (clear_progress { clientPresent := true, reachable := true, primary := [], fallback := [] } "s" 1)
        "s" 1 0 1 0 0 0 0 none).completed = 0
    ∧ (written_entry
        (clear_progress { clientPresent := true, reachable := true, primary := [], fallback := [] } "s" 1)
        "s" 1 0 1 0 0 0 0 none).eta = 0
    ∧ (written_entry
        (clear_progress { clientPresent := true, reachable := true, primary := [], fallback := [] } "s" 1)
        "s" 1 0 1 0 0 0 0 none).percent = 0 :=
  C10_division_guards.2.2.2 ℕ "s" 1 none
    (fun _ => CallOutcome.returnsParsed (0 : ℕ)) 1 [0] (fun _ => 1)
    { clientPresent := true, reachable := true, primary := [], fallback := [] } _ (by rfl)

/-- C1 counterexample: for `N = 0` the batch does **not** return an empty
result array — `min(0, MAX_BATCH_WORKERS) = 0` workers makes
`ThreadPoolExecutor` raise `ValueError` and the endpoint answers with an
error, so the claim's "for all N ≥ 0" fails at `N = 0`. -/
theorem C1_counterexample :
    execute_step_batch "s" 1 none
        (fun _ => CallOutcome.returnsParsed (0 : ℕ)) 0 [] (fun _ => 0)
        { clientPresent := true, reachable := true, primary := [], fallback := [] }
      = .error "max_workers must be greater than 0" := rfl

/-- C1 amended: for every batch with `N ≥ 1` items and any mix of per-item
outcomes, the batch execution returns exactly `N` results, the result at
position `i` being the outcome of input item `i`, for every completion
order (hence for any concurrency level). -/
theorem C1_ordered_results {β : Type} (sid : String) (stp : ℕ)
    (phase : Option String) (outcomes : ℕ → CallOutcome β) (n : ℕ)
    (order : List ℕ) (elapsedAt : ℕ → ℚ) (store0 : StoreState)
    (h1 : 0 < n) (h2 : order.Perm (List.range n)) :
    (batchResultsOf (execute_step_batch sid stp phase outcomes n order
        elapsedAt store0)).length = n
    ∧ ∀ i, i < n →
        (batchResultsOf (execute_step_batch sid stp phase outcomes n order
          elapsedAt store0))[i]?
          = some (expectedResult outcomes i) := by
  have hs := execute_step_batch_summary sid stp phase outcomes n order
    elapsedAt store0 h1 h2
  rw [batchResultsOf_of_summaryOf _ _ hs]
  constructor
  · simp
  · intro i hi
    simp [List.getElem?_map, List.getElem?_range hi]

/-- C1 witness: a concrete two-item batch, completed out of order, with one
failing item. -/
theorem C1_witness :
    (batchResultsOf (execute_step_batch "s" 1 none
        (fun i => if i = 0 then CallOutcome.raises "boom"
          else CallOutcome.returnsParsed (7 : ℕ)) 2 [1, 0] (fun _ => 1)
        { clientPresent := true, reachable := true, primary := [], fallback := [] })).length = 2
    ∧ ∀ i, i < 2 →
        (batchResultsOf (execute_step_batch "s" 1 none
          (fun i => if i = 0 then CallOutcome.raises "boom"
            else CallOutcome.returnsParsed (7 : ℕ)) 2 [1, 0] (fun _ => 1)
          { clientPresent := true, reachable := true, primary := [], fallback := [] }))[i]?
          = some (expectedResult
              (fun i => if i = 0 then CallOutcome.raises "boom"
                else CallOutcome.returnsParsed (7 : ℕ)) i) :=
  C1_ordered_results "s" 1 none _ 2 [1, 0] (fun _ => 1)
    { clientPresent := true, reachable := true, primary := [], fallback := [] }
    (by norm_num) (by decide)

/-- C2 counterexample: a one-item batch whose remote call returns malformed
output.  `execute_single_item` returns the raw/parse-error dict normally,
so the dispatcher records `success: True` for the item and counts it in
`successful` — the final summary is `successful = 1, failed = 0` and every
progress snapshot shows `failed = 0`, contradicting the claim that such an
item becomes a Failure counted in `failed`. -/
theorem C2_counterexample :
    summaryOf (execute_step_batch "s" 2 none
        (fun _ => (CallOutcome.returnsMalformed "raw" "bad" : CallOutcome ℕ))
        1 [0] (fun _ => 1)
        { clientPresent := true, reachable := true, primary := [], fallback := [] })
      = .ok ⟨[⟨true, some (.rawWithParseError "raw" "bad"), none, 0⟩], 1, 1, 0⟩
    ∧ (traceOf (execute_step_batch "s" 2 none
        (fun _ => (CallOutcome.returnsMalformed "raw" "bad" : CallOutcome ℕ))
        1 [0] (fun _ => 1)
        { clientPresent := true, reachable := true, primary := [], fallback := [] })).map
          (fun e => (e.successful, e.failed))
      = [(0, 0), (1, 0)] := by
  constructor <;>
    simp [execute_step_batch, summaryOf, traceOf, processOne, pushProgress,
      execute_single_item, update_progress, written_entry, clear_progress,
      setKey, eraseKey, lookupKey, MAX_BATCH_WORKERS, avg_time_per_item,
      Except.map]

/-- C2 amended: an item whose remote output fails JSON parsing is returned
as a *Success* entry carrying the raw response and parse detail
(`{'raw_response': raw, 'parse_error': detail}`), counted in `successful`
and never in `failed`; the batch is not aborted. -/
theorem C2_malformed_is_success {β : Type} (sid : String) (stp : ℕ)
    (phase : Option String) (outcomes : ℕ → CallOutcome β) (n : ℕ)
    (order : List ℕ) (elapsedAt : ℕ → ℚ) (store0 : StoreState)
    (idx : ℕ) (raw detail : String)
    (h1 : 0 < n) (h2 : order.Perm (List.range n)) (hidx : idx < n)
    (hout : outcomes idx = .returnsMalformed raw detail) :
    (batchResultsOf (execute_step_batch sid stp phase outcomes n order
        elapsedAt store0))[idx]?
      = some ⟨true, some (.rawWithParseError raw detail), none, idx⟩
    ∧ successfulOf (execute_step_batch sid stp phase outcomes n order
        elapsedAt store0)
      = ((List.range n).filter
          (fun i => (expectedResult outcomes i).success)).length
    ∧ failedOf (execute_step_batch sid stp phase outcomes n order
        elapsedAt store0)
      = n - successfulOf (execute_step_batch sid stp phase outcomes n order
          elapsedAt store0)
    ∧ (expectedResult outcomes idx).success = true
    ∧ idx ∈ (List.range n).filter
        (fun i => (expectedResult outcomes i).success) := by
  have hs := execute_step_batch_summary sid stp phase outcomes n order
    elapsedAt store0 h1 h2
  have hexp : expectedResult outcomes idx
      = ⟨true, some (.rawWithParseError raw detail), none, idx⟩ := by
    simp [expectedResult, execute_single_item, hout]
  refine ⟨?_, ?_, ?_, ?_, ?_⟩
  · rw [batchResultsOf_of_summaryOf _ _ hs]
    simp [List.getElem?_map, List.getElem?_range hidx, hexp]
  · rw [successfulOf_of_summaryOf _ _ hs]
  · rw [failedOf_of_summaryOf _ _ hs, successfulOf_of_summaryOf _ _ hs]
  · simp [hexp]
  · simp only [List.mem_filter, List.mem_range]
    exact ⟨hidx, by simp [hexp]⟩

/-- C2 witness: concrete two-item batch, item 1 malformed. -/
theorem C2_witness :
    (batchResultsOf (execute_step_batch "s" 2 none
        (fun i => if i = 1 then CallOutcome.returnsMalformed "oops" "bad"
          else CallOutcome.returnsParsed (3 : ℕ)) 2 [1, 0] (fun _ => 1)
        { clientPresent := true, reachable := true, primary := [], fallback := [] }))[1]?
      = some ⟨true, some (.rawWithParseError "oops" "bad"), none, 1⟩
    ∧ successfulOf (execute_step_batch "s" 2 none
        (fun i => if i = 1 then CallOutcome.returnsMalformed "oops" "bad"
          else CallOutcome.returnsParsed (3 : ℕ)) 2 [1, 0] (fun _ => 1)
        { clientPresent := true, reachable := true, primary := [], fallback := [] })
      = ((List.range 2).filter
          (fun i => (expectedResult
            (fun i => if i = 1 then CallOutcome.returnsMalformed "oops" "bad"
              else CallOutcome.returnsParsed (3 : ℕ)) i).success)).length
    ∧ failedOf (execute_step_batch "s" 2 none
        (fun i => if i = 1 then CallOutcome.returnsMalformed "oops" "bad"
          else CallOutcome.returnsParsed (3 : ℕ)) 2 [1, 0] (fun _ => 1)
        { clientPresent := true, reachable := true, primary := [], fallback := [] })
      = 2 - successfulOf (execute_step_batch "s" 2 none
          (fun i => if i = 1 then CallOutcome.returnsMalformed "oops" "bad"
            else CallOutcome.returnsParsed (3 : ℕ)) 2 [1, 0] (fun _ => 1)
          { clientPresent := true, reachable := true, primary := [], fallback := [] })
    ∧ (expectedResult
        (fun i => if i = 1 then CallOutcome.returnsMalformed "oops" "bad"
          else CallOutcome.returnsParsed (3 : ℕ)) 1).success = true
    ∧ 1 ∈ (List.range 2).filter
        (fun i => (expectedResult
          (fun i => if i = 1 then CallOutcome.returnsMalformed "oops" "bad"
            else CallOutcome.returnsParsed (3 : ℕ)) i).success) :=
  C2_malformed_is_success "s" 2 none _ 2 [1, 0] (fun _ => 1)
    { clientPresent := true, reachable := true, primary := [], fallback := [] } 1 "oops" "bad"
    (by norm_num) (by decide) (by norm_num) rfl

/-- C5: an item whose execution raises any exception is caught inside the
dispatcher and converted into a Failure entry at that item's index only;
the run still returns normally with a full `N`-element result array, and
every sibling's entry is its own outcome. -/
theorem C5_exception_isolation {β : Type} (sid : String) (stp : ℕ)
    (phase : Option String) (outcomes : ℕ → CallOutcome β) (n : ℕ)
    (order : List ℕ) (elapsedAt : ℕ → ℚ) (store0 : StoreState)
    (idx : ℕ) (msg : String)
    (h1 : 0 < n) (h2 : order.Perm (List.range n)) (hidx : idx < n)
    (hout : outcomes idx = .raises msg) :
    runSucceeds (execute_step_batch sid stp phase outcomes n order
        elapsedAt store0) = true
    ∧ (batchResultsOf (execute_step_batch sid stp phase outcomes n order
        elapsedAt store0)).length = n
    ∧ (batchResultsOf (execute_step_batch sid stp phase outcomes n order
        elapsedAt store0))[idx]?
      = some ⟨false, none, some msg, idx⟩
    ∧ ∀ j, j < n → j ≠ idx →
        (batchResultsOf (execute_step_batch sid stp phase outcomes n order
          elapsedAt store0))[j]?
          = some (expectedResult outcomes j) := by
  have hs := execute_step_batch_summary sid stp phase outcomes n order
    elapsedAt store0 h1 h2
  have hexp : expectedResult outcomes idx = ⟨false, none, some msg, idx⟩ := by
    simp [expectedResult, execute_single_item, hout]
  refine ⟨runSucceeds_of_summaryOf _ _ hs, ?_, ?_, ?_⟩
  · rw [batchResultsOf_of_summaryOf _ _ hs]; simp
  · rw [batchResultsOf_of_summaryOf _ _ hs]
    simp [List.getElem?_map, List.getElem?_range hidx, hexp]
  · intro j hj _
    rw [batchResultsOf_of_summaryOf _ _ hs]
    simp [List.getElem?_map, List.getElem?_range hj]

/-- C5 witness: three items run at concurrency 2, items 0 and 2 raise,
item 1 succeeds. -/
theorem C5_witness :
    runSucceeds (execute_step_batch "s" 1 none
        (fun i => if i = 1 then CallOutcome.returnsParsed (5 : ℕ)
          else CallOutcome.raises "timeout") 3 [2, 0, 1] (fun _ => 1)
        { clientPresent := true, reachable := true, primary := [], fallback := [] }) = true
    ∧ (batchResultsOf (execute_step_batch "s" 1 none
        (fun i => if i = 1 then CallOutcome.returnsParsed (5 : ℕ)
          else CallOutcome.raises "timeout") 3 [2, 0, 1] (fun _ => 1)
        { clientPresent := true, reachable := true, primary := [], fallback := [] })).length = 3
    ∧ (batchResultsOf (execute_step_batch "s" 1 none
        (fun i => if i = 1 then CallOutcome.returnsParsed (5 : ℕ)
          else CallOutcome.raises "timeout") 3 [2, 0, 1] (fun _ => 1)
        { clientPresent := true, reachable := true, primary := [], fallback := [] }))[0]?
      = some ⟨false, none, some "timeout", 0⟩
    ∧ ∀ j, j < 3 → j ≠ 0 →
        (batchResultsOf (execute_step_batch "s" 1 none
          (fun i => if i = 1 then CallOutcome.returnsParsed (5 : ℕ)
            else CallOutcome.raises "timeout") 3 [2, 0, 1] (fun _ => 1)
          { clientPresent := true, reachable := true, primary := [], fallback := [] }))[j]?
          = some (expectedResult
              (fun i => if i = 1 then CallOutcome.returnsParsed (5 : ℕ)
                else CallOutcome.raises "timeout") j) :=
  C5_exception_isolation "s" 1 none _ 3 [2, 0, 1] (fun _ => 1)
    { clientPresent := true, reachable := true, primary := [], fallback := [] } 0 "timeout"
    (by norm_num) (by decide) (by norm_num) rfl

/-- C3 counterexample: a concrete phase-4b batch (step 4, `phase_info '4b'`,
2 items).  After the first completion the *stored* percent is `50`
(`completed/total*100`), while the phase-weighted value `10 + 0.5*90 = 55`
appears only in the log computation (`log_progress_pct`) — the stored
snapshot is not phase-weighted. -/
theorem C3_counterexample :
    (traceOf (execute_step_batch "s" 4 (some "4b")
        (fun _ => CallOutcome.returnsParsed (0 : ℕ)) 2 [0, 1] (fun _ => 1)
        { clientPresent := true, reachable := true, primary := [], fallback := [] })).map
      (fun e => e.percent) = [0, 50, 100]
    ∧ log_progress_pct 4 (some "4b") 1 2 = 55
    ∧ ((50 : ℚ) ≠ 55) := by
  refine ⟨?_, ?_, by norm_num⟩
  · norm_num [execute_step_batch, traceOf, processOne, pushProgress,
      execute_single_item, update_progress, written_entry, clear_progress,
      setKey, eraseKey, lookupKey, MAX_BATCH_WORKERS, avg_time_per_item,
      pyRound1, roundHalfEven]
  · norm_num [log_progress_pct]

/-- C3 amended: the `percent` field of every stored progress snapshot is the
*unweighted* `round((completed/total)*100, 1)` (or `0` when `total = 0`),
for every batch — including step-4 phase batches; the phase-weighted value
is only computed for log output. -/
theorem C3_stored_percent_unweighted {β : Type} (sid : String) (stp : ℕ)
    (phase : Option String) (outcomes : ℕ → CallOutcome β) (n : ℕ)
    (order : List ℕ) (elapsedAt : ℕ → ℚ) (store0 : StoreState)
    (hlen : order.length ≤ n) :
    ∀ e ∈ traceOf (execute_step_batch sid stp phase outcomes n order
        elapsedAt store0),
      e.percent = if 0 < e.total
        then pyRound1 (((e.completed : ℚ) / (e.total : ℚ)) * 100)
        else 0 := by
  by_cases h : min n MAX_BATCH_WORKERS = 0
  · simp [execute_step_batch, traceOf, h]
  · simp only [execute_step_batch, traceOf, if_neg h]
    refine fold_trace_invariant sid stp outcomes n elapsedAt
      (fun e => e.percent = if 0 < e.total
        then pyRound1 (((e.completed : ℚ) / (e.total : ℚ)) * 100)
        else 0)
      ?_ order _ rfl ?_ ?_
    · intro store c s f latest _ _
      simp [written_entry]
    · simpa [pushProgress] using hlen
    · intro e he
      simp only [pushProgress, List.nil_append, List.mem_singleton] at he
      subst he
      simp [written_entry]

/-- C3 witness: concrete phase-4a batch; its trace has two snapshots, both
covered by the amended statement. -/
theorem C3_witness :
    (∀ e ∈ traceOf (execute_step_batch "s" 4 (some "4a")
        (fun _ => CallOutcome.returnsParsed (0 : ℕ)) 1 [0] (fun _ => 1)
        { clientPresent := true, reachable := true, primary := [], fallback := [] }),
      e.percent = if 0 < e.total
        then pyRound1 (((e.completed : ℚ) / (e.total : ℚ)) * 100)
        else 0)
    ∧ (traceOf (execute_step_batch "s" 4 (some "4a")
        (fun _ => CallOutcome.returnsParsed (0 : ℕ)) 1 [0] (fun _ => 1)
        { clientPresent := true, reachable := true, primary := [], fallback := [] })).length = 2 :=
  ⟨C3_stored_percent_unweighted "s" 4 (some "4a") _ 1 [0] (fun _ => 1)
    { clientPresent := true, reachable := true, primary := [], fallback := [] } (by norm_num), rfl⟩

/-- C4: every progress snapshot written during a batch — the initial zero
snapshot and each per-completion update — satisfies
`successful + failed = completed`, `completed ≤ total` and `total = N`. -/
theorem C4_snapshot_invariant {β : Type} (sid : String) (stp : ℕ)
    (phase : Option String) (outcomes : ℕ → CallOutcome β) (n : ℕ)
    (order : List ℕ) (elapsedAt : ℕ → ℚ) (store0 : StoreState)
    (hlen : order.length ≤ n) :
    ∀ e ∈ traceOf (execute_step_batch sid stp phase outcomes n order
        elapsedAt store0),
      e.successful + e.failed = e.completed
      ∧ e.completed ≤ e.total
      ∧ e.total = n := by
  by_cases h : min n MAX_BATCH_WORKERS = 0
  · simp [execute_step_batch, traceOf, h]
  · simp only [execute_step_batch, traceOf, if_neg h]
    refine fold_trace_invariant sid stp outcomes n elapsedAt
      (fun e => e.successful + e.failed = e.completed
        ∧ e.completed ≤ e.total ∧ e.total = n)
      ?_ order _ rfl ?_ ?_
    · intro store c s f latest hsum hc
      simp only [written_entry]
      exact ⟨hsum, hc, trivial⟩
    · simpa [pushProgress] using hlen
    · intro e he
      simp only [pushProgress, List.nil_append, List.mem_singleton] at he
      subst he
      simp [written_entry]

/-- C4 witness: concrete three-item batch with a failure, completed out of
order; its trace has four snapshots, all covered by the invariant. -/
theorem C4_witness :
    (∀ e ∈ traceOf (execute_step_batch "s" 1 none
        (fun i => if i = 1 then CallOutcome.raises "t"
          else CallOutcome.returnsParsed (0 : ℕ)) 3 [2, 0, 1] (fun _ => 1)
        { clientPresent := true, reachable := true, primary := [], fallback := [] }),
      e.successful + e.failed = e.completed
      ∧ e.completed ≤ e.total
      ∧ e.total = 3)
    ∧ (traceOf (execute_step_batch "s" 1 none
        (fun i => if i = 1 then CallOutcome.raises "t"
          else CallOutcome.returnsParsed (0 : ℕ)) 3 [2, 0, 1] (fun _ => 1)
        { clientPresent := true, reachable := true, primary := [], fallback := [] })).length = 4 :=
  ⟨C4_snapshot_invariant "s" 1 none _ 3 [2, 0, 1] (fun _ => 1)
    { clientPresent := true, reachable := true, primary := [], fallback := [] } (by norm_num), rfl⟩

/-- C9 counterexample: three items completing at wall-clock readings
`0.1s, 0.25s, …`.  At the second completion the claim's formula gives
`(elapsed/completed)*(total-completed) = (1/4)/2 * 1 = 1/8 = 0.125`, but
the value written to the store is `round(0.125, 1) = 0.1` — the stored eta
is the *rounded* value, not the exact product. -/
theorem C9_counterexample :
    (traceOf (execute_step_batch "s" 1 none
        (fun _ => CallOutcome.returnsParsed (0 : ℕ)) 3 [0, 1, 2]
        (fun k => if k = 2 then (1/4 : ℚ) else 1/10)
        { clientPresent := true, reachable := true, primary := [], fallback := [] })).map
      (fun e => e.eta) = [0, 1/5, 1/10, 0]
    ∧ ((1/4 : ℚ) / 2) * ((3 : ℚ) - 2) = 1/8
    ∧ ((1/10 : ℚ) ≠ 1/8) := by
  refine ⟨?_, by norm_num, by norm_num⟩
  norm_num [execute_step_batch, traceOf, processOne, pushProgress,
    execute_single_item, update_progress, written_entry, clear_progress,
    setKey, eraseKey, lookupKey, MAX_BATCH_WORKERS, avg_time_per_item,
    pyRound1, roundHalfEven]

/-- C9 amended: every per-item-completion snapshot (`completed > 0`) stores
`eta = round((elapsed/completed) * (total-completed), 1)` — the claim's
average-times-remaining product, rounded to one decimal before storage —
where `elapsed` is the wall-clock reading at that completion; and for
`completed > 0` the dispatcher's average really is `elapsed / completed`. -/
theorem C9_eta_formula {β : Type} (sid : String) (stp : ℕ)
    (phase : Option String) (outcomes : ℕ → CallOutcome β) (n : ℕ)
    (order : List ℕ) (elapsedAt : ℕ → ℚ) (store0 : StoreState)
    (hlen : order.length ≤ n) :
    (∀ e ∈ traceOf (execute_step_batch sid stp phase outcomes n order
        elapsedAt store0),
      0 < e.completed →
        e.eta = pyRound1 (avg_time_per_item (elapsedAt e.completed)
          e.completed * (((n - e.completed : ℕ)) : ℚ)))
    ∧ (∀ (el : ℚ) (c : ℕ), 0 < c →
        avg_time_per_item el c = el / (c : ℚ)) := by
  constructor
  · by_cases h : min n MAX_BATCH_WORKERS = 0
    · simp [execute_step_batch, traceOf, h]
    · simp only [execute_step_batch, traceOf, if_neg h]
      refine fold_trace_invariant sid stp outcomes n elapsedAt
        (fun e => 0 < e.completed →
          e.eta = pyRound1 (avg_time_per_item (elapsedAt e.completed)
            e.completed * (((n - e.completed : ℕ)) : ℚ)))
        ?_ order _ rfl ?_ ?_
      · intro store c s f latest _ _
        simp [written_entry]
      · simpa [pushProgress] using hlen
      · intro e he
        simp only [pushProgress, List.nil_append, List.mem_singleton] at he
        subst he
        simp [written_entry]
  · intro el c hc
    simp [avg_time_per_item, hc]

/-- C9 witness: concrete two-item batch. -/
theorem C9_witness :
    (∀ e ∈ traceOf (execute_step_batch "s" 1 none
        (fun _ => CallOutcome.returnsParsed (0 : ℕ)) 2 [0, 1] (fun _ => 1)
        { clientPresent := true, reachable := true, primary := [], fallback := [] }),
      0 < e.completed →
        e.eta = pyRound1 (avg_time_per_item ((fun _ => (1 : ℚ)) e.completed)
          e.completed * (((2 - e.completed : ℕ)) : ℚ)))
    ∧ (∀ (el : ℚ) (c : ℕ), 0 < c →
        avg_time_per_item el c = el / (c : ℚ)) :=
  C9_eta_formula "s" 1 none _ 2 [0, 1] (fun _ => 1)
    { clientPresent := true, reachable := true, primary := [], fallback := [] } (by norm_num)

/-- C6 counterexample: starting from the fresh stream state, 300 consecutive
ticks with unchanged (absent) progress emit nothing and leave the stream
polling; the `{done, timeout}` event only comes on the 301st idle tick
(`idle_count > 300`), so "after exactly 300 consecutive ticks" is false. -/
theorem C6_counterexample :
    streamRunFrom (some initStream) (List.replicate 300 none)
      = ([], some ⟨-1, 300⟩)
    ∧ streamRunFrom (some initStream) (List.replicate 301 none)
      = ([.doneTimeout], none) := by
  constructor
  · have h := streamRun_unchanged (List.replicate 300 none) (-1) 0
      (fun r hr p hp => by rw [List.eq_of_mem_replicate hr] at hp; cases hp)
      (by rw [List.length_replicate])
    rw [List.length_replicate] at h
    exact h
  · have h := streamRun_timeout (List.replicate 301 none) (-1) 0
      (fun r hr p hp => by rw [List.eq_of_mem_replicate hr] at hp; cases hp)
      (by norm_num) (by rw [List.length_replicate])
    exact h

/-- C6 amended: the stream emits a snapshot iff the store has an entry whose
`completed` differs from the last emitted value; an emitted snapshot with
`completed ≥ total` is followed by one `done` event and termination; an
unchanged tick is silent; and the idle timeout event fires on the tick on
which the idle counter *exceeds* 300 — i.e. after 301 consecutive unchanged
ticks, not 300 (after exactly 300 the stream is still polling). -/
theorem C6_stream_machine :
    (∀ (lc : ℤ) (j : ℕ) (reads : List (Option ProgressEntry)),
        (∀ r ∈ reads, ∀ p, r = some p → (p.completed : ℤ) = lc) →
        j + reads.length ≤ 300 →
        streamRunFrom (some ⟨lc, j⟩) reads
          = ([], some ⟨lc, j + reads.length⟩))
    ∧ (∀ (lc : ℤ) (j : ℕ) (reads : List (Option ProgressEntry)),
        (∀ r ∈ reads, ∀ p, r = some p → (p.completed : ℤ) = lc) →
        j ≤ 300 → j + reads.length = 301 →
        streamRunFrom (some ⟨lc, j⟩) reads = ([.doneTimeout], none))
    ∧ (∀ (s : StreamState) (p : ProgressEntry),
        (p.completed : ℤ) ≠ s.lastCompleted → p.completed < p.total →
        streamTick s (some p)
          = ([.snapshot p], some ⟨(p.completed : ℤ), 0⟩))
    ∧ (∀ (s : StreamState) (p : ProgressEntry),
        (p.completed : ℤ) ≠ s.lastCompleted → p.total ≤ p.completed →
        streamTick s (some p) = ([.snapshot p, .done p], none))
    ∧ (∀ (s : StreamState) (p : ProgressEntry),
        (p.completed : ℤ) = s.lastCompleted → s.idleCount < 300 →
        streamTick s (some p)
          = ([], some ⟨s.lastCompleted, s.idleCount + 1⟩)) := by
  refine ⟨?_, ?_, ?_, ?_, ?_⟩
  · intro lc j reads hr hb
    exact streamRun_unchanged reads lc j hr hb
  · intro lc j reads hr hj hlen
    exact streamRun_timeout reads lc j hr hj hlen
  · intro s p hne hlt
    simp only [streamTick, ne_eq, hne, not_false_eq_true, if_true]
    rw [if_neg (by omega)]
  · intro s p hne hge
    simp only [streamTick, ne_eq, hne, not_false_eq_true, if_true]
    rw [if_pos hge]
  · intro s p heq hidle
    exact streamTick_unchanged s (some p)
      (fun q hq => by injection hq with h; rw [← h]; exact heq) hidle

/-- C6 witness: a changed snapshot below total is emitted and resets the
idle counter. -/
theorem C6_witness :
    streamTick ⟨-1, 5⟩ (some ⟨0, 2, 0, 0, 0, 0, 0, []⟩)
      = ([.snapshot ⟨0, 2, 0, 0, 0, 0, 0, []⟩], some ⟨(0 : ℤ), 0⟩) :=
  C6_stream_machine.2.2.1 ⟨-1, 5⟩ ⟨0, 2, 0, 0, 0, 0, 0, []⟩
    (by norm_num) (by norm_num)
